import Mathlib

/-
  Shallow embedding of SCP002/executor (Go).

  The embedding follows the `Command`-based API in `executor.go`
  (types `CmdOptions`, `StartOptions`, `Result`, `Command`, functions
  `NewCommand`, `PipeStdoutTo`, `PipeStderrTo`, `Command.Start`), plus the
  signal machinery of the function-style `Start` variant (unnamed part_002).

  Text values (Go strings) are modelled as `List Char`; one `Char` stands for
  one rune delivered by `bufio.ScanRunes`.  The process environment
  (spawn success, exit status, the character stream the scanner consumed
  before `Start` returns) is an explicit parameter `Env`.
-/

namespace Executor

/-- Line-terminator test used by the scan closure (`executor.go` line 271):
a character ends a line iff it is a line feed or a carriage return. -/
def isTerm (c : Char) : Bool := c == '\n' || c == '\r'

/-- Which callbacks/flags are active for the scan closure: `opts.Capture`,
`opts.OnChar != nil`, `opts.OnLine != nil`. -/
structure ScanOpts where
  capture : Bool
  hasOnChar : Bool
  hasOnLine : Bool
deriving DecidableEq

/-- State of the scan closure (`executor.go` lines 255-279): the capture
buffer `outSb`, the line accumulator `lineSb`, and the traces of characters
delivered to `OnChar` and lines delivered to `OnLine`, in delivery order. -/
structure ScanState where
  outSb : List Char
  lineSb : List Char
  charEvents : List Char
  lineEvents : List (List Char)
deriving DecidableEq

/-- Both string builders start empty and no callback has fired. -/
def initScanState : ScanState := ⟨[], [], [], []⟩

/-- One iteration of the scanner loop body (`executor.go` lines 262-278):
append to the capture buffer if `Capture`, fire `OnChar` if registered, and
if `OnLine` is registered either fire it on a terminator (delivering the
accumulated line and resetting the accumulator) or extend the accumulator. -/
def scanStep (o : ScanOpts) (st : ScanState) (c : Char) : ScanState :=
  let st1 := if o.capture then { st with outSb := st.outSb ++ [c] } else st
  let st2 := if o.hasOnChar then { st1 with charEvents := st1.charEvents ++ [c] } else st1
  if o.hasOnLine then
    if isTerm c then
      { st2 with lineEvents := st2.lineEvents ++ [st2.lineSb], lineSb := [] }
    else
      { st2 with lineSb := st2.lineSb ++ [c] }
  else st2

/-- Running the scanner loop over the whole consumed character stream. -/
def scanRun (o : ScanOpts) (input : List Char) : ScanState :=
  input.foldl (scanStep o) initScanState

/-- Specification-side definition, following the spec's words: splitting the
input at line terminators yields the segments of text strictly between
terminators (one more segment than there are terminators; the last segment is
the trailing text after the final terminator). -/
def specSegments : List Char → List (List Char)
  | [] => [[]]
  | c :: rest =>
    if isTerm c then [] :: specSegments rest
    else
      match specSegments rest with
      | s :: ss => (c :: s) :: ss
      | [] => [[c]]

theorem specSegments_ne_nil (input : List Char) : specSegments input ≠ [] := by
  cases input with
  | nil => simp [specSegments]
  | cons c rest =>
    simp only [specSegments]
    split
    · simp
    · split <;> simp

theorem length_specSegments (input : List Char) :
    (specSegments input).length = input.countP isTerm + 1 := by
  induction input with
  | nil => simp [specSegments]
  | cons c rest ih =>
    simp only [specSegments, List.countP_cons]
    split
    · rename_i h
      simp [h, ih]
    · rename_i h
      rcases hs : specSegments rest with _ | ⟨s, ss⟩
      · exact absurd hs (specSegments_ne_nil rest)
      · simp only [List.length_cons, h, cond_false]
        have := ih
        rw [hs] at this
        simpa using this

/-- The line events produced by the scanner loop starting from line
accumulator `acc`, as a standalone recursion (used to relate the fold to
`specSegments`). -/
def lineEvAux (acc : List Char) : List Char → List (List Char)
  | [] => []
  | c :: rest =>
    if isTerm c then acc :: lineEvAux [] rest
    else lineEvAux (acc ++ [c]) rest

theorem scanStep_lineSb_lineEvents (o : ScanOpts) (ho : o.hasOnLine = true)
    (st : ScanState) (c : Char) :
    ((scanStep o st c).lineSb = (if isTerm c then [] else st.lineSb ++ [c])) ∧
    ((scanStep o st c).lineEvents =
      (if isTerm c then st.lineEvents ++ [st.lineSb] else st.lineEvents)) := by
  simp only [scanStep, ho, if_true]
  cases hcap : o.capture <;> cases hchar : o.hasOnChar <;>
    cases hterm : isTerm c <;> simp

theorem foldl_scanStep_lineEvents (o : ScanOpts) (ho : o.hasOnLine = true)
    (input : List Char) :
    ∀ st : ScanState,
      (input.foldl (scanStep o) st).lineEvents = st.lineEvents ++ lineEvAux st.lineSb input := by
  induction input with
  | nil => intro st; simp [lineEvAux]
  | cons c rest ih =>
    intro st
    simp only [List.foldl_cons, lineEvAux]
    rcases scanStep_lineSb_lineEvents o ho st c with ⟨hsb, hev⟩
    cases hterm : isTerm c with
    | true =>
      rw [ih (scanStep o st c), hsb, hev]
      simp [hterm, List.append_assoc]
    | false =>
      rw [ih (scanStep o st c), hsb, hev]
      simp [hterm]

/-- Applies a function to the head of a list, if any. -/
def modHead (f : List Char → List Char) : List (List Char) → List (List Char)
  | [] => []
  | s :: ss => f s :: ss

theorem lineEvAux_eq_specSegments (input : List Char) :
    ∀ acc : List Char,
      lineEvAux acc input = (modHead (fun s => acc ++ s) (specSegments input)).dropLast := by
  induction input with
  | nil => intro acc; simp [lineEvAux, specSegments, modHead]
  | cons c rest ih =>
    intro acc
    simp only [lineEvAux, specSegments]
    cases hterm : isTerm c with
    | true =>
      simp only [if_true]
      rcases hs : specSegments rest with _ | ⟨s, ss⟩
      · exact absurd hs (specSegments_ne_nil rest)
      · have ihn := ih []
        rw [hs] at ihn
        simp only [modHead, List.append_nil, List.nil_append] at ihn ⊢
        rw [ihn]
        rfl
    | false =>
      simp only [hterm, Bool.false_eq_true, if_false]
      rcases hs : specSegments rest with _ | ⟨s, ss⟩
      · exact absurd hs (specSegments_ne_nil rest)
      · have iha := ih (acc ++ [c])
        rw [hs] at iha
        simp only [modHead] at iha ⊢
        rw [iha]
        simp

theorem scanRun_lineEvents (o : ScanOpts) (ho : o.hasOnLine = true) (input : List Char) :
    (scanRun o input).lineEvents = (specSegments input).dropLast := by
  rw [scanRun, foldl_scanStep_lineEvents o ho input initScanState]
  simp only [initScanState, List.nil_append]
  rw [lineEvAux_eq_specSegments input []]
  congr 1
  rcases hs : specSegments input with _ | ⟨s, ss⟩
  · exact absurd hs (specSegments_ne_nil input)
  · simp [modHead]

theorem scanRun_outSb (o : ScanOpts) (hc : o.capture = true) (input : List Char) :
    (scanRun o input).outSb = input := by
  have key : ∀ (l : List Char) (st : ScanState),
      (l.foldl (scanStep o) st).outSb = st.outSb ++ l := by
    intro l
    induction l with
    | nil => intro st; simp
    | cons c rest ih =>
      intro st
      simp only [List.foldl_cons]
      rw [ih (scanStep o st c)]
      have hstep : (scanStep o st c).outSb = st.outSb ++ [c] := by
        simp only [scanStep, hc, if_true]
        cases hchar : o.hasOnChar <;> cases hline : o.hasOnLine <;>
          cases hterm : isTerm c <;> simp
      rw [hstep]
      simp
  rw [scanRun, key input initScanState]
  simp [initScanState]

theorem scanRun_charEvents (o : ScanOpts) (hc : o.hasOnChar = true) (input : List Char) :
    (scanRun o input).charEvents = input := by
  have key : ∀ (l : List Char) (st : ScanState),
      (l.foldl (scanStep o) st).charEvents = st.charEvents ++ l := by
    intro l
    induction l with
    | nil => intro st; simp
    | cons c rest ih =>
      intro st
      simp only [List.foldl_cons]
      rw [ih (scanStep o st c)]
      have hstep : (scanStep o st c).charEvents = st.charEvents ++ [c] := by
        simp only [scanStep, hc]
        cases hcap : o.capture <;> cases hline : o.hasOnLine <;>
          cases hterm : isTerm c <;> simp
      rw [hstep]
      simp
  rw [scanRun, key input initScanState]
  simp [initScanState]

/-- Outcome of the OS spawn primitive (`c.cmd.Start()`). -/
inductive SpawnResult
  | ok
  | failed
deriving DecidableEq

/-- Outcome of waiting on the child process (`c.cmd.Wait()`): either the
process exited with a status (Go reports a nonzero status as an
`exec.ExitError`, matched by `errors.As`), or the wait mechanism itself
failed with an error that is not an exit-status error. -/
inductive WaitOutcome
  | exited (code : Nat)
  | mechFail
deriving DecidableEq

/-- Forwarding pipe write ends the upstream command created during its own
`Start` (fields `stdoutPipeWriter`, `stderrPipeWriter`, `combinedPipeWriter`
of the upstream `Command`, non-nil or nil). -/
structure PrevInfo where
  stdoutW : Bool
  stderrW : Bool
  combinedW : Bool
deriving DecidableEq

/-- The mutable `Command` fields relevant to `Start`: the pipe-topology
flags set by `PipeStdoutTo` / `PipeStderrTo`, and the upstream command
(`prevCmd`, abstracted to its forwarding write ends). -/
structure Command where
  sendStdout : Bool
  sendStderr : Bool
  receiveStdout : Bool
  receiveStderr : Bool
  prevCmd : Option PrevInfo
deriving DecidableEq

/-- `NewCommand` (executor.go lines 199-208) returns a command with no pipe
topology declared. -/
def newCommand : Command :=
  { sendStdout := false, sendStderr := false,
    receiveStdout := false, receiveStderr := false, prevCmd := none }

/-- The `StartOptions` fields (executor.go lines 155-166); the two callback
fields are abstracted to whether they are non-nil. -/
structure StartOptions where
  scanStdout : Bool
  scanStderr : Bool
  print : Bool
  capture : Bool
  wait : Bool
  newConsole : Bool
  hide : Bool
  hasOnChar : Bool
  hasOnLine : Bool
deriving DecidableEq

/-- Behavior of the environment during one `Start` call: whether the spawn
succeeds, whether waiting on the upstream process returns an error, the
outcome of waiting on the own process, and the character stream the scanner
consumed before `Start` returned (for a waited run, the child's entire
decoded output). -/
structure Env where
  spawn : SpawnResult
  prevWaitErr : Bool
  wait : WaitOutcome
  stream : List Char
deriving DecidableEq

/-- The `Result` struct (executor.go lines 169-174). -/
structure Result where
  doneOk : Bool
  startOk : Bool
  exitCode : Int
  output : List Char
deriving DecidableEq

/-- The zero `Result` with the -1 sentinel (executor.go lines 226-228). -/
def initResult : Result :=
  { doneOk := false, startOk := false, exitCode := -1, output := [] }

/-- The errors `Start` can return, by source site. -/
inductive StartError
  | spawnError
  | prevWaitError
  | waitError
deriving DecidableEq

/-- Observable events of one `Start` call, in program order. -/
inductive Ev
  | spawnAttempt
  | prevWaitAttempt
  | prevWaited
  | prevClosedStdout
  | prevClosedStderr
  | prevClosedCombined
  | ownWaitAttempt
  | ownWaited
deriving DecidableEq

/-- Where a stream of the child process is wired to. -/
inductive Dest
  | unset
  | console
  | scanWriter
  | forwardWriter
  | multiScanForward
deriving DecidableEq

/-- What the child's standard input is wired to. -/
inductive StdinSrc
  | inherit
  | prevCombined
  | prevStdout
  | prevStderr
deriving DecidableEq

/-- Stdout/stderr wiring of the child (executor.go lines 233-245, 249-253
and 299-325): the scan pipe writer is installed first when scanning or
forwarding is requested, the console branch overrides both streams with the
parent console, and the forwarding branch installs the forwarding pipe
writer, duplicated with the scan writer when the stream is also scanned. -/
def wire (c : Command) (opts : StartOptions) : Dest × Dest :=
  let stdout0 := if opts.scanStdout || c.sendStdout then Dest.scanWriter else Dest.unset
  let stderr0 := if opts.scanStderr || c.sendStderr then Dest.scanWriter else Dest.unset
  if opts.newConsole || opts.hide then
    (Dest.console, Dest.console)
  else
    if c.sendStdout && c.sendStderr then
      ((if opts.scanStdout then Dest.multiScanForward else Dest.forwardWriter),
       (if opts.scanStderr then Dest.multiScanForward else Dest.forwardWriter))
    else if c.sendStdout then
      ((if opts.scanStdout then Dest.multiScanForward else Dest.forwardWriter), stderr0)
    else if c.sendStderr then
      (stdout0, (if opts.scanStderr then Dest.multiScanForward else Dest.forwardWriter))
    else
      (stdout0, stderr0)

/-- Stdin selection (executor.go lines 327-333): the reader of the upstream
referenced by `prevCmd`, chosen by the receive flags. -/
def stdinSel (c : Command) : StdinSrc :=
  if c.receiveStdout && c.receiveStderr then StdinSrc.prevCombined
  else if c.receiveStdout then StdinSrc.prevStdout
  else if c.receiveStderr then StdinSrc.prevStderr
  else StdinSrc.inherit

/-- Close events for the upstream's forwarding write ends
(executor.go lines 358-366): each non-nil write end is closed. -/
def closeEvents : Option PrevInfo → List Ev
  | none => []
  | some p =>
    (if p.stdoutW then [Ev.prevClosedStdout] else []) ++
    (if p.stderrW then [Ev.prevClosedStderr] else []) ++
    (if p.combinedW then [Ev.prevClosedCombined] else [])

/-- Everything observable about one `Start` call. `hangs = true` models the
call never returning (blocked on the scanner-completion channel); `res` then
holds the result value as it stood at the blocking point. -/
structure StartOutcome where
  res : Result
  err : Option StartError
  trace : List Ev
  hangs : Bool
  processHandle : Bool
  scanned : Option ScanState
  stdoutDest : Dest
  stderrDest : Dest
  stdinSrc : StdinSrc
deriving DecidableEq

/-- Characters delivered to the `OnChar` callback during the call. -/
def outCharEvents (o : StartOutcome) : List Char :=
  match o.scanned with
  | some s => s.charEvents
  | none => []

/-- Lines delivered to the `OnLine` callback during the call. -/
def outLineEvents (o : StartOutcome) : List (List Char) :=
  match o.scanned with
  | some s => s.lineEvents
  | none => []

/-- The wait phase of `Start` (executor.go lines 368-398): if `Wait` is set,
wait on the own process; a non-exit-status wait error returns immediately;
otherwise, if the console branch was taken while a scan flag is set, the
call blocks forever on `scanDoneCh` (no scanner was launched to signal it);
otherwise the process state fills `DoneOk`/`ExitCode` and the captured
buffer fills `Output`.  Without `Wait`, the process state is still nil, so
only `Output` is assigned. -/
def waitPhase (opts : StartOptions) (env : Env) (console : Bool)
    (capturedOut : List Char) (o : StartOutcome) : StartOutcome :=
  if opts.wait then
    match env.wait with
    | WaitOutcome.mechFail =>
      { o with err := some StartError.waitError, trace := o.trace ++ [Ev.ownWaitAttempt] }
    | WaitOutcome.exited n =>
      let o1 := { o with trace := o.trace ++ [Ev.ownWaited] }
      if console && (opts.scanStdout || opts.scanStderr) then
        { o1 with hangs := true }
      else
        let r1 := { o1.res with doneOk := n == 0, exitCode := (n : Int) }
        { o1 with res := { r1 with output := capturedOut } }
  else
    { o with res := { o.res with output := capturedOut } }

/-- `Command.Start` (executor.go lines 225-401) as a function of the command
topology, the start options and the environment behavior. -/
def start (c : Command) (opts : StartOptions) (env : Env) : StartOutcome :=
  let console := opts.newConsole || opts.hide
  let scanLaunched := !console && (opts.scanStdout || opts.scanStderr)
  let sOpts : ScanOpts := ⟨opts.capture, opts.hasOnChar, opts.hasOnLine⟩
  let scanned : Option ScanState :=
    if scanLaunched then some (scanRun sOpts env.stream) else none
  let capturedOut : List Char :=
    match scanned with
    | some s => s.outSb
    | none => []
  let dests := wire c opts
  let sIn := if console then StdinSrc.inherit else stdinSel c
  let base : StartOutcome :=
    { res := initResult, err := none, trace := [Ev.spawnAttempt], hangs := false,
      processHandle := false, scanned := scanned,
      stdoutDest := dests.1, stderrDest := dests.2, stdinSrc := sIn }
  match env.spawn with
  | SpawnResult.failed => { base with err := some StartError.spawnError }
  | SpawnResult.ok =>
    let resStarted := { initResult with startOk := true }
    let started := { base with processHandle := true, res := resStarted }
    match c.prevCmd with
    | some p =>
      if env.prevWaitErr then
        { started with
          err := some StartError.prevWaitError,
          trace := [Ev.spawnAttempt, Ev.prevWaitAttempt] }
      else
        waitPhase opts env console capturedOut
          { started with trace := [Ev.spawnAttempt, Ev.prevWaited] ++ closeEvents (some p) }
    | none => waitPhase opts env console capturedOut started

/-- The mutable `Command` fields touched by the pipe-declaration calls, with
the upstream reference `prevCmd` as a command identifier. -/
structure CommandRec where
  sendStdout : Bool
  sendStderr : Bool
  receiveStdout : Bool
  receiveStderr : Bool
  prevCmd : Option Nat
deriving DecidableEq

/-- A heap of commands indexed by identifier, for modelling the by-reference
mutations performed by `PipeStdoutTo` / `PipeStderrTo`. -/
def Store : Type := Nat → CommandRec

/-- Update one command record in the store. -/
def setRec (σ : Store) (i : Nat) (f : CommandRec → CommandRec) : Store :=
  fun j => if j = i then f (σ j) else σ j

/-- `PipeStdoutTo` (executor.go lines 211-215): mark the upstream `c` as
sending stdout, mark the downstream `to` as receiving stdout, and overwrite
the downstream's `prevCmd` with `c`. -/
def pipeStdoutTo (σ : Store) (c dst : Nat) : Store :=
  let σ1 := setRec σ c (fun r => { r with sendStdout := true })
  setRec σ1 dst (fun r => { r with receiveStdout := true, prevCmd := some c })

/-- `PipeStderrTo` (executor.go lines 218-222): mark the upstream `c` as
sending stderr, mark the downstream `to` as receiving stderr, and overwrite
the downstream's `prevCmd` with `c`. -/
def pipeStderrTo (σ : Store) (c dst : Nat) : Store :=
  let σ1 := setRec σ c (fun r => { r with sendStderr := true })
  setRec σ1 dst (fun r => { r with receiveStderr := true, prevCmd := some c })

/-- One pipe declaration: which call, the upstream, the downstream. -/
inductive PipeOp
  | pstdout (c dst : Nat)
  | pstderr (c dst : Nat)
deriving DecidableEq

/-- The upstream command of a pipe declaration. -/
def opSource : PipeOp → Nat
  | PipeOp.pstdout c _ => c
  | PipeOp.pstderr c _ => c

/-- The downstream command of a pipe declaration. -/
def opTarget : PipeOp → Nat
  | PipeOp.pstdout _ t => t
  | PipeOp.pstderr _ t => t

/-- Apply one pipe declaration to the store. -/
def applyOp (σ : Store) : PipeOp → Store
  | PipeOp.pstdout c t => pipeStdoutTo σ c t
  | PipeOp.pstderr c t => pipeStderrTo σ c t

/-- Apply a sequence of pipe declarations, first to last. -/
def applyOps (σ : Store) (ops : List PipeOp) : Store :=
  ops.foldl applyOp σ

/-- The upstream of the most recent declaration in `ops` targeting `d`, if
any (later declarations override earlier ones). -/
def lastUpstream (d : Nat) : List PipeOp → Option Nat
  | [] => none
  | op :: ops =>
    match lastUpstream d ops with
    | some s => some s
    | none => if opTarget op = d then some (opSource op) else none

/-- Which background actions a variant attaches to the interrupt/termination
signal channel it registers with `signal.Notify`. -/
structure SignalBehavior where
  notifyInstalled : Bool
  killOnSignal : Bool
deriving DecidableEq

/-- Signal machinery of `NewCommand` (executor.go lines 204-207): a buffered
channel is registered for `os.Interrupt` and `SIGTERM`, but no goroutine
ever receives from the channel and `Kill` is never called anywhere in this
variant, so receipt of a signal triggers no kill request. -/
def newCommandSignal : SignalBehavior :=
  { notifyInstalled := true, killOnSignal := false }

/-- Signal machinery of the function-style `Start` (unnamed part_002): the
same registration, plus a goroutine that receives from the channel and calls
`cmd.Process.Kill()`, discarding any error. -/
def startFnSignal : SignalBehavior :=
  { notifyInstalled := true, killOnSignal := true }

theorem applyOps_prevCmd (ops : List PipeOp) :
    ∀ (σ : Store) (d : Nat),
      (applyOps σ ops d).prevCmd =
        (match lastUpstream d ops with
         | some s => some s
         | none => (σ d).prevCmd) := by
  induction ops with
  | nil => intro σ d; rfl
  | cons op ops ih =>
    intro σ d
    have hstep : applyOps σ (op :: ops) = applyOps (applyOp σ op) ops := rfl
    rw [hstep, ih (applyOp σ op) d]
    cases h : lastUpstream d ops with
    | some s => simp [lastUpstream, h]
    | none =>
      simp only [lastUpstream, h]
      cases op with
      | pstdout a b =>
        simp only [opTarget, opSource]
        by_cases ht : b = d
        · subst ht
          simp [applyOp, pipeStdoutTo, setRec]
        · rw [if_neg ht]
          simp only [applyOp, pipeStdoutTo, setRec]
          rw [if_neg (fun hh => ht hh.symm)]
          split <;> rfl
      | pstderr a b =>
        simp only [opTarget, opSource]
        by_cases ht : b = d
        · subst ht
          simp [applyOp, pipeStderrTo, setRec]
        · rw [if_neg ht]
          simp only [applyOp, pipeStderrTo, setRec]
          rw [if_neg (fun hh => ht hh.symm)]
          split <;> rfl

/-- C3: for every input character stream, with the on-line callback
registered, `onLine` fires exactly as many times as there are line
terminators in the stream, each invocation receiving the text strictly
between terminators, and the trailing unterminated text is never
delivered (it is the dropped last segment). -/
theorem scan_onLine_exact_segments (o : ScanOpts) (input : List Char)
    (ho : o.hasOnLine = true) :
    (scanRun o input).lineEvents = (specSegments input).dropLast ∧
    (scanRun o input).lineEvents.length = input.countP isTerm := by
  refine ⟨scanRun_lineEvents o ho input, ?_⟩
  rw [scanRun_lineEvents o ho input, List.length_dropLast, length_specSegments]
  simp

/-- Witness for C3 on the concrete stream "a\r\nb": two terminators, the
delivered lines are "a" and "", and the trailing "b" is never delivered. -/
theorem scan_onLine_exact_segments_witness :
    (scanRun ⟨true, true, true⟩ ['a', '\r', '\n', 'b']).lineEvents =
        (specSegments ['a', '\r', '\n', 'b']).dropLast ∧
    (scanRun ⟨true, true, true⟩ ['a', '\r', '\n', 'b']).lineEvents.length =
        List.countP isTerm ['a', '\r', '\n', 'b'] :=
  scan_onLine_exact_segments ⟨true, true, true⟩ ['a', '\r', '\n', 'b'] rfl

/-- C5: when spawning the process fails, `Start` returns immediately with the
error surfaced, `StartOk = false`, `ExitCode` left at the -1 sentinel, no
process handle retained, and a trace showing a single spawn attempt and
nothing else (no retry). -/
theorem start_spawn_failure (c : Command) (opts : StartOptions) (env : Env)
    (hs : env.spawn = SpawnResult.failed) :
    (start c opts env).err = some StartError.spawnError ∧
    (start c opts env).res.startOk = false ∧
    (start c opts env).res.exitCode = -1 ∧
    (start c opts env).res.doneOk = false ∧
    (start c opts env).processHandle = false ∧
    (start c opts env).trace = [Ev.spawnAttempt] := by
  obtain ⟨sp, pwe, w, stream⟩ := env
  cases hs
  simp [start, initResult]

/-- Witness for C5 at a concrete failing spawn. -/
theorem start_spawn_failure_witness :
    (start ⟨false, false, false, false, none⟩
        ⟨true, false, false, true, true, false, false, false, false⟩
        ⟨SpawnResult.failed, false, WaitOutcome.exited 0, []⟩).err =
          some StartError.spawnError ∧
    (start ⟨false, false, false, false, none⟩
        ⟨true, false, false, true, true, false, false, false, false⟩
        ⟨SpawnResult.failed, false, WaitOutcome.exited 0, []⟩).res.startOk = false ∧
    (start ⟨false, false, false, false, none⟩
        ⟨true, false, false, true, true, false, false, false, false⟩
        ⟨SpawnResult.failed, false, WaitOutcome.exited 0, []⟩).res.exitCode = -1 ∧
    (start ⟨false, false, false, false, none⟩
        ⟨true, false, false, true, true, false, false, false, false⟩
        ⟨SpawnResult.failed, false, WaitOutcome.exited 0, []⟩).res.doneOk = false ∧
    (start ⟨false, false, false, false, none⟩
        ⟨true, false, false, true, true, false, false, false, false⟩
        ⟨SpawnResult.failed, false, WaitOutcome.exited 0, []⟩).processHandle = false ∧
    (start ⟨false, false, false, false, none⟩
        ⟨true, false, false, true, true, false, false, false, false⟩
        ⟨SpawnResult.failed, false, WaitOutcome.exited 0, []⟩).trace = [Ev.spawnAttempt] :=
  start_spawn_failure _ _ _ rfl

/-- C7 counterexample: the claim "a listener for interrupt/termination
signals is installed and on receipt it requests that the child be killed"
is false for commands created by `NewCommand`: the channel registered in
`NewCommand` is never received from and no kill is ever requested. -/
theorem newCommand_signal_no_kill :
    ¬ (newCommandSignal.notifyInstalled = true ∧ newCommandSignal.killOnSignal = true) := by
  decide

/-- C7 amended: `NewCommand` registers a process-wide channel for
interrupt/termination signals once per created Command, but attaches no kill
action to it; the kill-the-child-on-signal behavior exists only in the
function-style `Start` variant, which drains the channel in a goroutine and
calls `Kill`, swallowing any failure. -/
theorem signal_listener_behavior :
    newCommandSignal.notifyInstalled = true ∧
    newCommandSignal.killOnSignal = false ∧
    startFnSignal.notifyInstalled = true ∧
    startFnSignal.killOnSignal = true := by
  decide

/-- C10: each pipe declaration targeting a downstream command overwrites the
downstream's `prevCmd` reference, so after any sequence of declarations the
downstream's `prevCmd` is the upstream of the most recent declaration
targeting it (and is untouched when no declaration targets it). -/
theorem pipe_prevCmd_most_recent (σ : Store) (ops : List PipeOp) (d : Nat) :
    (∀ s, lastUpstream d ops = some s → (applyOps σ ops d).prevCmd = some s) ∧
    (lastUpstream d ops = none → (applyOps σ ops d).prevCmd = (σ d).prevCmd) := by
  constructor
  · intro s hlast
    rw [applyOps_prevCmd ops σ d, hlast]
  · intro hlast
    rw [applyOps_prevCmd ops σ d, hlast]

/-- Witness for C10: after piping stdout of command 1 to command 3 and then
stderr of command 2 to command 3, command 3's upstream is command 2. -/
theorem pipe_prevCmd_most_recent_witness :
    (applyOps (fun _ => ⟨false, false, false, false, none⟩)
        [PipeOp.pstdout 1 3, PipeOp.pstderr 2 3] 3).prevCmd = some 2 :=
  (pipe_prevCmd_most_recent (fun _ => ⟨false, false, false, false, none⟩)
    [PipeOp.pstdout 1 3, PipeOp.pstderr 2 3] 3).1 2 rfl

/-- C1: for a waited `Start` whose process spawns, whose upstream wait (if
any) succeeds, and whose process exits with status `n`, the returned result
(the call does return: it does not block on the scanner channel) carries
`ExitCode = n` and `DoneOk = (n == 0)`. -/
theorem start_wait_exit_status (c : Command) (opts : StartOptions) (env : Env) (n : Nat)
    (hw : opts.wait = true) (hs : env.spawn = SpawnResult.ok)
    (hp : c.prevCmd = none ∨ env.prevWaitErr = false)
    (he : env.wait = WaitOutcome.exited n)
    (hh : (start c opts env).hangs = false) :
    (start c opts env).res.exitCode = (n : Int) ∧
    (start c opts env).res.doneOk = (n == 0) := by
  obtain ⟨sp, pwe, w, stream⟩ := env
  cases hs
  cases he
  obtain ⟨ss, se, rs, re, prev⟩ := c
  obtain ⟨o1, o2, o3, o4, o5, o6, o7, o8, o9⟩ := opts
  cases hw
  rcases prev with _ | p
  · cases o6 <;> cases o7 <;> cases o1 <;> cases o2 <;>
      simp_all [start, waitPhase, initResult]
  · rcases hp with hp | hp
    · cases hp
    · cases hp
      cases o6 <;> cases o7 <;> cases o1 <;> cases o2 <;>
        simp_all [start, waitPhase, initResult]

/-- Witness for C1: a waited run exiting with status 7 yields
`ExitCode = 7` and `DoneOk = false`. -/
theorem start_wait_exit_status_witness :
    (start ⟨false, false, false, false, none⟩
        ⟨true, false, false, true, true, false, false, true, true⟩
        ⟨SpawnResult.ok, false, WaitOutcome.exited 7, ['h', 'i']⟩).res.exitCode = (7 : Int) ∧
    (start ⟨false, false, false, false, none⟩
        ⟨true, false, false, true, true, false, false, true, true⟩
        ⟨SpawnResult.ok, false, WaitOutcome.exited 7, ['h', 'i']⟩).res.doneOk = (7 == 0) :=
  start_wait_exit_status _ _ _ 7 rfl rfl (Or.inl rfl) rfl (by decide)

/-- C2: for a waited `Start` whose process spawns and whose upstream wait
(if any) succeeds, an exit with any status (zero or not) yields a nil
error, and a non-nil wait error is returned exactly when the wait mechanism
itself fails with a non-exit-status error. -/
theorem start_wait_error_only_mech (c : Command) (opts : StartOptions) (env : Env)
    (hw : opts.wait = true) (hs : env.spawn = SpawnResult.ok)
    (hp : c.prevCmd = none ∨ env.prevWaitErr = false) :
    (∀ n, env.wait = WaitOutcome.exited n → (start c opts env).err = none) ∧
    (env.wait = WaitOutcome.mechFail →
      (start c opts env).err = some StartError.waitError) := by
  obtain ⟨sp, pwe, w, stream⟩ := env
  cases hs
  obtain ⟨ss, se, rs, re, prev⟩ := c
  obtain ⟨o1, o2, o3, o4, o5, o6, o7, o8, o9⟩ := opts
  cases hw
  constructor
  · intro n hn
    cases hn
    rcases prev with _ | p
    · cases o6 <;> cases o7 <;> cases o1 <;> cases o2 <;>
        simp_all [start, waitPhase]
    · rcases hp with hp | hp
      · cases hp
      · cases hp
        cases o6 <;> cases o7 <;> cases o1 <;> cases o2 <;>
          simp_all [start, waitPhase]
  · intro hn
    cases hn
    rcases prev with _ | p
    · simp_all [start, waitPhase]
    · rcases hp with hp | hp
      · cases hp
      · cases hp
        simp_all [start, waitPhase]

/-- Witness for C2: a waited run exiting with nonzero status 3 returns a nil
error; a waited run whose wait mechanism fails returns the wait error. -/
theorem start_wait_error_only_mech_witness :
    (start ⟨false, false, false, false, none⟩
        ⟨false, false, false, false, true, false, false, false, false⟩
        ⟨SpawnResult.ok, false, WaitOutcome.exited 3, []⟩).err = none ∧
    (start ⟨false, false, false, false, none⟩
        ⟨false, false, false, false, true, false, false, false, false⟩
        ⟨SpawnResult.ok, false, WaitOutcome.mechFail, []⟩).err =
          some StartError.waitError :=
  ⟨(start_wait_error_only_mech _ _ _ rfl rfl (Or.inl rfl)).1 3 rfl,
   (start_wait_error_only_mech _ _ _ rfl rfl (Or.inl rfl)).2 rfl⟩

theorem waitPhase_err (opts : StartOptions) (env : Env) (console : Bool)
    (cap : List Char) (o : StartOutcome) :
    (waitPhase opts env console cap o).err =
      (if opts.wait = true then
        (match env.wait with
         | WaitOutcome.mechFail => some StartError.waitError
         | WaitOutcome.exited _ => o.err)
       else o.err) := by
  cases hw : opts.wait with
  | false => simp [waitPhase, hw]
  | true =>
    cases hwe : env.wait with
    | mechFail => simp [waitPhase, hw, hwe]
    | exited n =>
      simp only [waitPhase, hw, hwe, if_true]
      split <;> simp

theorem waitPhase_mechFail_res (opts : StartOptions) (env : Env) (console : Bool)
    (cap : List Char) (o : StartOutcome)
    (hw : opts.wait = true) (hm : env.wait = WaitOutcome.mechFail) :
    (waitPhase opts env console cap o).res = o.res := by
  simp [waitPhase, hw, hm]

/-- C8: whenever `Start` returns a non-nil error after the process was
successfully spawned, the returned result still has `StartOk = true` while
`ExitCode` remains the -1 sentinel, `DoneOk` remains false, and `Output`
remains empty. -/
theorem start_error_after_spawn_result (c : Command) (opts : StartOptions) (env : Env)
    (e : StartError) (hs : env.spawn = SpawnResult.ok)
    (he : (start c opts env).err = some e) :
    (start c opts env).res.startOk = true ∧
    (start c opts env).res.exitCode = -1 ∧
    (start c opts env).res.doneOk = false ∧
    (start c opts env).res.output = [] := by
  obtain ⟨sp, pwe, w, stream⟩ := env
  cases hs
  obtain ⟨ss, se, rs, re, prev⟩ := c
  obtain ⟨o1, o2, o3, o4, o5, o6, o7, o8, o9⟩ := opts
  rcases prev with _ | p <;> cases pwe <;> cases o5 <;> cases w <;>
    simp_all [start, waitPhase_err, waitPhase_mechFail_res, initResult]

/-- Witness for C8: a waited run whose wait mechanism fails keeps
`StartOk = true`, `ExitCode = -1`, `DoneOk = false` and empty output. -/
theorem start_error_after_spawn_result_witness :
    (start ⟨false, false, false, false, none⟩
        ⟨true, false, false, true, true, false, false, false, false⟩
        ⟨SpawnResult.ok, false, WaitOutcome.mechFail, ['x']⟩).res.startOk = true ∧
    (start ⟨false, false, false, false, none⟩
        ⟨true, false, false, true, true, false, false, false, false⟩
        ⟨SpawnResult.ok, false, WaitOutcome.mechFail, ['x']⟩).res.exitCode = -1 ∧
    (start ⟨false, false, false, false, none⟩
        ⟨true, false, false, true, true, false, false, false, false⟩
        ⟨SpawnResult.ok, false, WaitOutcome.mechFail, ['x']⟩).res.doneOk = false ∧
    (start ⟨false, false, false, false, none⟩
        ⟨true, false, false, true, true, false, false, false, false⟩
        ⟨SpawnResult.ok, false, WaitOutcome.mechFail, ['x']⟩).res.output = [] :=
  start_error_after_spawn_result _ _ _ StartError.waitError rfl (by decide)

theorem waitPhase_scanned (opts : StartOptions) (env : Env) (console : Bool)
    (cap : List Char) (o : StartOutcome) :
    (waitPhase opts env console cap o).scanned = o.scanned := by
  cases hw : opts.wait with
  | false => simp [waitPhase, hw]
  | true =>
    cases hwe : env.wait with
    | mechFail => simp [waitPhase, hw, hwe]
    | exited n =>
      simp only [waitPhase, hw, hwe, if_true]
      split <;> simp

theorem waitPhase_stdoutDest (opts : StartOptions) (env : Env) (console : Bool)
    (cap : List Char) (o : StartOutcome) :
    (waitPhase opts env console cap o).stdoutDest = o.stdoutDest := by
  cases hw : opts.wait with
  | false => simp [waitPhase, hw]
  | true =>
    cases hwe : env.wait with
    | mechFail => simp [waitPhase, hw, hwe]
    | exited n =>
      simp only [waitPhase, hw, hwe, if_true]
      split <;> simp

theorem waitPhase_stderrDest (opts : StartOptions) (env : Env) (console : Bool)
    (cap : List Char) (o : StartOutcome) :
    (waitPhase opts env console cap o).stderrDest = o.stderrDest := by
  cases hw : opts.wait with
  | false => simp [waitPhase, hw]
  | true =>
    cases hwe : env.wait with
    | mechFail => simp [waitPhase, hw, hwe]
    | exited n =>
      simp only [waitPhase, hw, hwe, if_true]
      split <;> simp

theorem waitPhase_trace (opts : StartOptions) (env : Env) (console : Bool)
    (cap : List Char) (o : StartOutcome) :
    (waitPhase opts env console cap o).trace =
      o.trace ++
        (if opts.wait = true then
          (match env.wait with
           | WaitOutcome.mechFail => [Ev.ownWaitAttempt]
           | WaitOutcome.exited _ => [Ev.ownWaited])
         else []) := by
  cases hw : opts.wait with
  | false => simp [waitPhase, hw]
  | true =>
    cases hwe : env.wait with
    | mechFail => simp [waitPhase, hw, hwe]
    | exited n =>
      simp only [waitPhase, hw, hwe, if_true]
      split <;> simp

theorem waitPhase_output_cases (opts : StartOptions) (env : Env) (console : Bool)
    (cap : List Char) (o : StartOutcome) :
    (waitPhase opts env console cap o).res.output = cap ∨
    (waitPhase opts env console cap o).res.output = o.res.output := by
  cases hw : opts.wait with
  | false => left; simp [waitPhase, hw]
  | true =>
    cases hwe : env.wait with
    | mechFail => right; simp [waitPhase, hw, hwe]
    | exited n =>
      simp only [waitPhase, hw, hwe, if_true]
      split
      · right; simp
      · left; simp

theorem waitPhase_output_of (opts : StartOptions) (env : Env) (console : Bool)
    (cap : List Char) (o : StartOutcome)
    (h1 : cap = []) (h2 : o.res.output = []) :
    (waitPhase opts env console cap o).res.output = [] := by
  rcases waitPhase_output_cases opts env console cap o with h | h <;> rw [h] <;> assumption

theorem waitPhase_err_none_output (opts : StartOptions) (env : Env) (console : Bool)
    (cap : List Char) (o : StartOutcome)
    (ho : o.res.output = [])
    (hcs : console = true → cap = [])
    (he : (waitPhase opts env console cap o).err = none) :
    (waitPhase opts env console cap o).res.output = cap := by
  cases hw : opts.wait with
  | false => simp [waitPhase, hw]
  | true =>
    cases hwe : env.wait with
    | mechFail => simp [waitPhase, hw, hwe] at he
    | exited n =>
      simp only [waitPhase, hw, hwe, if_true]
      split
      · rename_i hcond
        have hc : console = true := by
          cases hcon : console
          · rw [hcon] at hcond; simp at hcond
          · rfl
        simp [ho, hcs hc]
      · simp

theorem start_scanned (c : Command) (opts : StartOptions) (env : Env) :
    (start c opts env).scanned =
      (if (!(opts.newConsole || opts.hide) && (opts.scanStdout || opts.scanStderr)) = true
       then some (scanRun ⟨opts.capture, opts.hasOnChar, opts.hasOnLine⟩ env.stream)
       else none) := by
  obtain ⟨sp, pwe, w, stream⟩ := env
  obtain ⟨ss, se, rs, re, prev⟩ := c
  cases sp <;> rcases prev with _ | p <;> cases pwe <;>
    simp [start, waitPhase_scanned]

theorem start_dests (c : Command) (opts : StartOptions) (env : Env) :
    (start c opts env).stdoutDest = (wire c opts).1 ∧
    (start c opts env).stderrDest = (wire c opts).2 := by
  obtain ⟨sp, pwe, w, stream⟩ := env
  obtain ⟨ss, se, rs, re, prev⟩ := c
  cases sp <;> rcases prev with _ | p <;> cases pwe <;>
    simp [start, waitPhase_stdoutDest, waitPhase_stderrDest]

theorem start_err_none_output (c : Command) (opts : StartOptions) (env : Env)
    (he : (start c opts env).err = none) :
    (start c opts env).res.output =
      (match (start c opts env).scanned with
       | some s => s.outSb
       | none => []) := by
  rw [start_scanned]
  obtain ⟨sp, pwe, w, stream⟩ := env
  obtain ⟨ss, se, rs, re, prev⟩ := c
  cases sp with
  | failed => simp [start] at he
  | ok =>
    rcases prev with _ | p
    · simp only [start] at he ⊢
      exact waitPhase_err_none_output _ _ _ _ _ rfl (fun hcons => by simp [hcons]) he
    · cases pwe with
      | true => simp [start] at he
      | false =>
        simp only [start] at he ⊢
        exact waitPhase_err_none_output _ _ _ _ _ rfl (fun hcons => by simp [hcons]) he

/-- C4 counterexample: for every run, with no error-free restriction, the
claim "the concatenation of characters delivered to `OnChar` equals
`Result.Output`" is false: in a captured, waited run over the stream "x"
whose wait mechanism fails, `Start` returns `res` before `res.Output` is
assigned, so `Output` is empty while `OnChar` already received the
character. -/
theorem start_onChar_concat_output_cex :
    ¬ ((start ⟨false, false, false, false, none⟩
          ⟨true, false, false, true, true, false, false, true, false⟩
          ⟨SpawnResult.ok, false, WaitOutcome.mechFail, ['x']⟩).res.output =
        outCharEvents (start ⟨false, false, false, false, none⟩
          ⟨true, false, false, true, true, false, false, true, false⟩
          ⟨SpawnResult.ok, false, WaitOutcome.mechFail, ['x']⟩)) := by
  decide

/-- C4 as amended: for a run with capture enabled and the `OnChar` callback
registered (on the same single character stream the scanner consumes) that
completes without error, the concatenation of the characters delivered to
`OnChar`, in delivery order, equals `Result.Output`.  (On the error-return
paths `Output` stays empty while `OnChar` may already have fired; see the
counterexample.) -/
theorem start_onChar_concat_output (c : Command) (opts : StartOptions) (env : Env)
    (hcap : opts.capture = true) (hchar : opts.hasOnChar = true)
    (he : (start c opts env).err = none) :
    (start c opts env).res.output = outCharEvents (start c opts env) := by
  have hout := start_err_none_output c opts env he
  have hsc := start_scanned c opts env
  rw [hout]
  simp only [outCharEvents]
  cases hscrut : (start c opts env).scanned with
  | none => rfl
  | some s =>
    rw [hscrut] at hsc
    by_cases hl :
        (!(opts.newConsole || opts.hide) && (opts.scanStdout || opts.scanStderr)) = true
    · rw [if_pos hl] at hsc
      injection hsc with hs2
      subst hs2
      show (scanRun _ env.stream).outSb = (scanRun _ env.stream).charEvents
      rw [scanRun_outSb _ (by simp [hcap]) env.stream,
          scanRun_charEvents _ (by simp [hchar]) env.stream]
    · rw [if_neg hl] at hsc
      cases hsc

/-- Witness for C4: a captured, waited run over the stream "ab\nc" yields
`Output` equal to the concatenation of the `OnChar` deliveries. -/
theorem start_onChar_concat_output_witness :
    (start ⟨false, false, false, false, none⟩
        ⟨true, false, false, true, true, false, false, true, false⟩
        ⟨SpawnResult.ok, false, WaitOutcome.exited 0, ['a', 'b', '\n', 'c']⟩).res.output =
      outCharEvents (start ⟨false, false, false, false, none⟩
        ⟨true, false, false, true, true, false, false, true, false⟩
        ⟨SpawnResult.ok, false, WaitOutcome.exited 0, ['a', 'b', '\n', 'c']⟩) :=
  start_onChar_concat_output _ _ _ rfl rfl (by decide)

/-- C6: for a chained pair, the downstream's `Start` first waits for the
immediate upstream's process to terminate and only then closes the
upstream's forwarding pipe write ends (the consumer then observes
end-of-stream on its input by pipe semantics: closing the write end is what
signals end-of-stream); if waiting on the upstream fails, the forwarding
write ends are not closed and the error is surfaced. -/
theorem start_prev_wait_before_close (c : Command) (opts : StartOptions) (env : Env)
    (p : PrevInfo) (hp : c.prevCmd = some p) (hs : env.spawn = SpawnResult.ok) :
    (env.prevWaitErr = false →
      ∃ t, (start c opts env).trace =
        Ev.spawnAttempt :: Ev.prevWaited :: (closeEvents (some p) ++ t)) ∧
    (env.prevWaitErr = true →
      (start c opts env).trace = [Ev.spawnAttempt, Ev.prevWaitAttempt]) := by
  obtain ⟨sp, pwe, w, stream⟩ := env
  cases hs
  obtain ⟨ss, se, rs, re, prev⟩ := c
  cases hp
  constructor
  · intro hpw
    cases hpw
    by_cases hw : opts.wait = true
    · cases w with
      | exited n =>
        refine ⟨[Ev.ownWaited], ?_⟩
        simp only [start, Bool.false_eq_true, if_false]
        rw [waitPhase_trace]
        simp [hw]
      | mechFail =>
        refine ⟨[Ev.ownWaitAttempt], ?_⟩
        simp only [start, Bool.false_eq_true, if_false]
        rw [waitPhase_trace]
        simp [hw]
    · refine ⟨[], ?_⟩
      simp only [start, Bool.false_eq_true, if_false]
      rw [waitPhase_trace]
      simp [hw]
  · intro hpw
    cases hpw
    simp [start]

/-- Witness for C6: a concrete chained pair (upstream forwarding stdout)
with a successful upstream wait, and one with a failing upstream wait. -/
theorem start_prev_wait_before_close_witness :
    (∃ t, (start ⟨false, false, true, false, some ⟨true, false, false⟩⟩
        ⟨true, false, false, true, true, false, false, false, false⟩
        ⟨SpawnResult.ok, false, WaitOutcome.exited 0, []⟩).trace =
      Ev.spawnAttempt :: Ev.prevWaited ::
        (closeEvents (some ⟨true, false, false⟩) ++ t)) ∧
    (start ⟨false, false, true, false, some ⟨true, false, false⟩⟩
        ⟨true, false, false, true, true, false, false, false, false⟩
        ⟨SpawnResult.ok, true, WaitOutcome.exited 0, []⟩).trace =
      [Ev.spawnAttempt, Ev.prevWaitAttempt] :=
  ⟨(start_prev_wait_before_close _ _ _ ⟨true, false, false⟩ rfl rfl).1 rfl,
   (start_prev_wait_before_close _ _ _ ⟨true, false, false⟩ rfl rfl).2 rfl⟩

/-- C9: with `NewConsole` or `Hide` set, the child's stdout and stderr are
wired directly to the parent console streams, no scanner runs, the `OnChar`
and `OnLine` callbacks never fire, and `Result.Output` is empty even when
`Capture` is true (the options are universally quantified, so this covers
`Capture = true`). -/
theorem start_console_direct (c : Command) (opts : StartOptions) (env : Env)
    (hc : opts.newConsole = true ∨ opts.hide = true) :
    (start c opts env).stdoutDest = Dest.console ∧
    (start c opts env).stderrDest = Dest.console ∧
    (start c opts env).scanned = none ∧
    outCharEvents (start c opts env) = [] ∧
    outLineEvents (start c opts env) = [] ∧
    (start c opts env).res.output = [] := by
  have hcons : (opts.newConsole || opts.hide) = true := by
    rcases hc with h | h <;> simp [h]
  have hsc : (start c opts env).scanned = none := by
    rw [start_scanned]
    simp [hcons]
  have hdest := start_dests c opts env
  have hwire : wire c opts = (Dest.console, Dest.console) := by
    simp [wire, hcons]
  refine ⟨?_, ?_, hsc, ?_, ?_, ?_⟩
  · rw [hdest.1, hwire]
  · rw [hdest.2, hwire]
  · simp [outCharEvents, hsc]
  · simp [outLineEvents, hsc]
  · obtain ⟨sp, pwe, w, stream⟩ := env
    obtain ⟨ss, se, rs, re, prev⟩ := c
    cases sp with
    | failed => simp [start, initResult]
    | ok =>
      rcases prev with _ | p
      · simp only [start]
        exact waitPhase_output_of _ _ _ _ _ (by simp [hcons]) rfl
      · cases pwe with
        | true => simp [start, initResult]
        | false =>
          simp only [start]
          exact waitPhase_output_of _ _ _ _ _ (by simp [hcons]) rfl

/-- Witness for C9: a concrete `NewConsole` run with `Capture = true` and
scan flags set. -/
theorem start_console_direct_witness :
    (start ⟨false, false, false, false, none⟩
        ⟨true, true, false, true, false, true, false, true, true⟩
        ⟨SpawnResult.ok, false, WaitOutcome.exited 0, ['x', 'y']⟩).stdoutDest =
          Dest.console ∧
    (start ⟨false, false, false, false, none⟩
        ⟨true, true, false, true, false, true, false, true, true⟩
        ⟨SpawnResult.ok, false, WaitOutcome.exited 0, ['x', 'y']⟩).stderrDest =
          Dest.console ∧
    (start ⟨false, false, false, false, none⟩
        ⟨true, true, false, true, false, true, false, true, true⟩
        ⟨SpawnResult.ok, false, WaitOutcome.exited 0, ['x', 'y']⟩).scanned = none ∧
    outCharEvents (start ⟨false, false, false, false, none⟩
        ⟨true, true, false, true, false, true, false, true, true⟩
        ⟨SpawnResult.ok, false, WaitOutcome.exited 0, ['x', 'y']⟩) = [] ∧
    outLineEvents (start ⟨false, false, false, false, none⟩
        ⟨true, true, false, true, false, true, false, true, true⟩
        ⟨SpawnResult.ok, false, WaitOutcome.exited 0, ['x', 'y']⟩) = [] ∧
    (start ⟨false, false, false, false, none⟩
        ⟨true, true, false, true, false, true, false, true, true⟩
        ⟨SpawnResult.ok, false, WaitOutcome.exited 0, ['x', 'y']⟩).res.output = [] :=
  start_console_direct _ _ _ (Or.inl rfl)

end Executor
